import Mathlib

/-!
Verification development for the notas_transf repository.

The repository contains two near-duplicate report pipelines:
* src/scripts/process_and_upload.py   — functions retry_api_call, process_dataframe_2,
  process_dataframe, update_google_sheet;
* src/scripts/process_and_upload_2.py — functions retry_api_call, clean_transfer_file
  (with its inner simplify_fornecedor), update_worksheet.

This file shallowly embeds those functions and proves the frozen claims about them.
Cells of the pandas dataframes are modelled by the type Value below: a cell is a
string, a number, a date-like value (anything pandas.to_datetime can parse, carried
as a day number), or missing (NaN/None).  Strings are modelled as List Char, which
mirrors Python str for the operations used by the source (strip, startswith-style
matching, substring containment, int() on digit strings).
-/

/-- A dataframe cell: string, numeric, date-like (day number), or missing (NaN). -/
inductive Value where
  | vstr  (s : List Char)
  | vnum  (n : Int)
  | vdate (d : Nat)
  | vnone
deriving DecidableEq

/-- Python str() / pandas astype(str) of a cell.  NaN renders as "nan".
Only substring tests are performed on these renderings by the source, so the exact
digits chosen for numbers and dates are immaterial; they contain no marker text. -/
def pyStr : Value → List Char
  | .vstr s  => s
  | .vnum n  => (toString n).data
  | .vdate d => (toString d).data
  | .vnone   => "nan".data

/-- The conditional rendering used in the clean_transfer_file row loop:
str(row.iloc[0]) if pd.notna(row.iloc[0]) else "". -/
def loopStr : Value → List Char
  | .vnone => []
  | v      => pyStr v

/-- pandas.to_datetime(..., errors=coerce) on one cell: date-like cells parse,
everything else coerces to NaT (none). -/
def parseDate : Value → Option Nat
  | .vdate d => some d
  | _        => none

/-- Does p occur as a leading segment of l?  (Python startswith.) -/
def hasLead (p l : List Char) : Bool :=
  match p, l with
  | [], _ => true
  | _ :: _, [] => false
  | a :: p, b :: l => a == b && hasLead p l

/-- Does p occur as a contiguous segment of l?  (Python: p in l.) -/
def hasSub (p l : List Char) : Bool :=
  match l with
  | [] => hasLead p []
  | _ :: t => hasLead p l || hasSub p t

/-- Python str.strip() whitespace set (ASCII). -/
def isPySpace (c : Char) : Bool :=
  c == ' ' || c == '\t' || c == '\n' || c == '\r' || c == Char.ofNat 11 || c == Char.ofNat 12

/-- Python str.strip(): remove the leading whitespace run, then the trailing
one (List.rdropWhile p l is (l.reverse.dropWhile p).reverse). -/
def pyStrip (l : List Char) : List Char :=
  List.rdropWhile isPySpace (l.dropWhile isPySpace)

/-- Numeric value of a decimal digit character. -/
def digitVal (c : Char) : Nat := c.toNat - '0'.toNat

/-- Accumulator form of Python int() on a string of decimal digits. -/
def digitsToNatAux (a : Nat) : List Char → Nat
  | [] => a
  | c :: cs => digitsToNatAux (a * 10 + digitVal c) cs

/-- Python int() on a string of decimal digits. -/
def digitsToNat (ds : List Char) : Nat := digitsToNatAux 0 ds

/-- The decimal digit character for k < 10. -/
def digitChar : Nat → Char
  | 0 => '0' | 1 => '1' | 2 => '2' | 3 => '3' | 4 => '4'
  | 5 => '5' | 6 => '6' | 7 => '7' | 8 => '8' | _ => '9'

/-- Canonical decimal numeral of a natural number (no leading zeros);
Python str() of a nonnegative int. -/
def natToDigits (n : Nat) : List Char :=
  if _h : n < 10 then [digitChar n]
  else natToDigits (n / 10) ++ [digitChar (n % 10)]
decreasing_by exact Nat.div_lt_self (by omega) (by omega)

/--
simplify_fornecedor from src/scripts/process_and_upload_2.py lines 111-118:

    val = str(val).strip()
    match = re.match(r"^F0?(\d+)", val)
    if match: return f"F{int(match.group(1))}"
    return val

The regex matches iff the stripped string starts with the letter F followed by a
digit.  When it matches, the captured group is either the maximal digit run after
F, or (when the first of those digits is 0 and more digits follow) that run minus
its first 0 — the greedy optional 0 with backtracking.  Since int() ignores leading
zeros, int(group) equals int() of the full digit run after F in every case, so the
embedding below uses the full run. -/
def fMatch : List Char → Bool
  | c :: d :: _ => c == 'F' && d.isDigit
  | _ => false

def simplifyFornecedor (s : List Char) : List Char :=
  let v := pyStrip s
  if fMatch v then 'F' :: natToDigits (digitsToNat ((v.drop 1).takeWhile Char.isDigit))
  else v

/-- The fornecedor column transform of clean_transfer_file step 11: NaN maps to
None, any other cell is rendered with str() and simplified. -/
def fornOut : Option Value → Option (List Char)
  | none => none
  | some .vnone => none
  | some v => some (simplifyFornecedor (pyStr v))

/-! ## Row Classifier, variant 2 (clean_transfer_file, steps 3-4)

A raw row of the variant-2 report, after read_excel(skiprows=2) and the
iloc[:, 1:36] slice.  Field ck is positional column k of the sliced frame; the
columns later renamed in step 7 are c0 = Nota, c1 = Filial (data), c2 = Emissão,
c3 = Núm. Contrl., c4 = Valor Total, c5 = Filial Origem.  In a marker row the
tag text lives in c0, the Filial payload in c1 and the Fornecedor payload in c2. -/

structure RawRow2 where
  c0 : Value
  c1 : Value
  c2 : Value
  c3 : Value
  c4 : Value
  c5 : Value
deriving DecidableEq

def tagFilial : List Char := "Filial:".data
def tagFornecedor : List Char := "Fornecedor:".data

/-- Marker-row test of the step-4 mask:
df.iloc[:, 0].astype(str).str.contains("Filial:|Fornecedor:"). -/
def isMarker2 (r : RawRow2) : Bool :=
  hasSub tagFilial (pyStr r.c0) || hasSub tagFornecedor (pyStr r.c0)

/-- The step-3 scan: walk the rows keeping the current Filial / Fornecedor
payloads; for each non-marker row emit the pair of current payloads.  The Python
builds the lists filiais_destino and fornecedores exactly this way (the loop uses
str(row.iloc[0]) if notna else "", which contains a tag iff astype(str) does,
since astype(str) renders NaN as "nan"). -/
def collect2 : List RawRow2 → Option Value → Option Value → List (Option Value × Option Value)
  | [], _, _ => []
  | r :: rest, fil, forn =>
    let s := loopStr r.c0
    if hasSub tagFilial s then collect2 rest (some r.c1) forn
    else if hasSub tagFornecedor s then collect2 rest fil (some r.c2)
    else (fil, forn) :: collect2 rest fil forn

/-- Step 4: clean_df = df[mask] — the non-marker rows, in order. -/
def dataRows2 (raw : List RawRow2) : List RawRow2 :=
  raw.filter (fun r => !isMarker2 r)

/-- Steps 3+4 combined: each surviving data row paired with the carried
(Filial Destino, Fornecedor) payloads assigned to it.  zip performs the
min-length truncation of the Python code (min_len = min(...); both sides in fact
always have equal length). -/
def classified2 (raw : List RawRow2) : List (RawRow2 × (Option Value × Option Value)) :=
  (dataRows2 raw).zip (collect2 raw none none)

/-! ## Field Normalizer, variant 2 (clean_transfer_file, steps 5-12) -/

def tagTotal : List Char := "Total:".data
def tagTotalGeral : List Char := "Total Geral:".data

/-- A variant-2 Transaction Record, the per-row content of the cleaned frame
after step 11 (columns of step 8 plus the step-9 Pendente a column).
emissaoOpt is the to_datetime(errors=coerce) Emissão column: none is NaT.
pendente is current_date minus the parsed date, in days; it is only ever read on
rows that survived the step-9 dropna, where emissaoOpt is some. -/
structure Rec2 where
  filialOrigem : Value
  emissaoOpt : Option Nat
  controle : Value
  valorTotal : Value
  filialDestino : Option Value
  fornecedor : Option (List Char)
  pendente : Int
deriving DecidableEq

/-- Build the record for one classified data row (steps 7-11).  The step-11
fornecedor simplification is a per-row map of an untouched column, so applying
it here, before the step-9 row filter, is equivalent to the source order. -/
def buildRec2 (today : Int) (p : RawRow2 × (Option Value × Option Value)) : Rec2 :=
  { filialOrigem := p.1.c5
    emissaoOpt := parseDate p.1.c2
    controle := p.1.c3
    valorTotal := p.1.c4
    filialDestino := p.2.1
    fornecedor := fornOut p.2.2
    pendente := today - ((parseDate p.1.c2).getD 0 : Int) }

/-- Lexicographic Bool comparison on Int triples: the comparison pandas
sort_values performs on the triple of sort keys. -/
def lexLe3 (a b : Int × Int × Int) : Bool :=
  a.1 < b.1 || (a.1 == b.1 && (a.2.1 < b.2.1 || (a.2.1 == b.2.1 && a.2.2 ≤ b.2.2)))

/-- Sort key of a Filial Destino cell for the variant-2 sort: pandas places NaN
last (na_position=last), and otherwise compares the numeric cell values (the
carried payloads are numeric branch ids in this report). -/
def filialKey : Option Value → Int × Int
  | none => (1, 0)
  | some .vnone => (1, 0)
  | some (.vnum n) => (0, n)
  | some (.vdate d) => (0, d)
  | some (.vstr _) => (0, 0)

/-- Step-12 composite key: sort_values(by=[Pendente a, Filial Destino],
ascending=[False, True]) — pending days descending, then destination ascending. -/
def key2 (r : Rec2) : Int × Int × Int :=
  (-r.pendente, (filialKey r.filialDestino).1, (filialKey r.filialDestino).2)

def le2 (a b : Rec2) : Bool := lexLe3 (key2 a) (key2 b)

/-- clean_transfer_file from src/scripts/process_and_upload_2.py, lines 39-125,
on the classified rows: totals filter (step 5), control-number dropna (step 6),
record construction (steps 7-11) with the Emissão dropna of step 9, and the
step-12 sort.  pandas multi-column sort_values uses numpy lexsort, a stable
sort, modelled by the stable List.mergeSort. -/
def preSort2 (raw : List RawRow2) (today : Int) : List Rec2 :=
  let afterTotals := (classified2 raw).filter
    (fun p => !(hasSub tagTotal (pyStr p.1.c0) || hasSub tagTotalGeral (pyStr p.1.c0)))
  let afterCtrl := afterTotals.filter (fun p => p.1.c3 != Value.vnone)
  (afterCtrl.map (buildRec2 today)).filter (fun r => !r.emissaoOpt.isNone)

def cleanTransferFile (raw : List RawRow2) (today : Int) : List Rec2 :=
  List.mergeSort (preSort2 raw today) le2

/-! ## Variant 1 (process_and_upload.py): process_dataframe_2 and process_dataframe

A raw row of the variant-1 report after read_excel(skiprows=2) and the
iloc[:, 1:6] slice of process_dataframe_2.  The code addresses two cells
positionally (iloc[0] for marker detection and removal, iloc[2] for the
Fornecedor payload) and five cells by column name; each location the code reads
is a field here.  Filial is the numeric branch id column: the source applies
astype(int) to it, which requires a number. -/

structure RawRow1 where
  c0 : Value
  c2 : Value
  filial : Int
  emissao : Value
  entrada : Value
  nota : Value
  controle : Value
deriving DecidableEq

/-- process_dataframe_2 (lines 54-57): keep rows whose first cell does not
contain Filial:/Total:/Total Filial:/Total Geral:.  Pandas str.contains on an
object column treats non-string cells as NaN, and na=False counts those as not
containing. -/
def pd2Keep (r : RawRow1) : Bool :=
  match r.c0 with
  | .vstr s => !(hasSub tagFilial s || hasSub "Total:".data s ||
      hasSub "Total Filial:".data s || hasSub "Total Geral:".data s)
  | _ => true

def processDataframe2 (raw : List RawRow1) : List RawRow1 :=
  raw.filter pd2Keep

/-- Marker-row test of process_dataframe (lines 64 and 76): equality of the
first cell with the exact string Fornecedor:. -/
def isMarker1 (r : RawRow1) : Bool := r.c0 == Value.vstr tagFornecedor

/-- The lines 59-70 scan: fornecedores gets, for each non-marker row, the
current payload (None before the first marker row). -/
def collect1 : List RawRow1 → Option Value → List (Option Value)
  | [], _ => []
  | r :: rest, forn =>
    if isMarker1 r then collect1 rest (some r.c2)
    else forn :: collect1 rest forn

/-- Line 76: df = df[df.iloc[:, 0] != "Fornecedor:"]. -/
def dataRows1 (raw : List RawRow1) : List RawRow1 :=
  raw.filter (fun r => !isMarker1 r)

/-- Lines 59-83 combined: each data row paired with its carried Fornecedor
payload.  The while-loop padding of fornecedores up to the unfiltered length is
sliced away again by the [:len(df)] truncation, since both lists have exactly
one entry per data row; zip realises that truncation. -/
def classified1 (raw : List RawRow1) : List (RawRow1 × Option Value) :=
  (dataRows1 raw).zip (collect1 raw none)

/-- A variant-1 record between lines 85 and 100: renamed columns, coerced
dates (none = NaT), computed pending-day counts.  pendente fields are only
read on rows that survive the dropna, where the Options are some. -/
structure Rec1 where
  nota : Value
  controle : Value
  emissaoOpt : Option Nat
  entradaOpt : Option Nat
  pendente : Int
  pendenteEntrada : Int
  fornecedor : Option Value
  filialDestino : Int
deriving DecidableEq

def buildRec1 (today : Int) (p : RawRow1 × Option Value) : Rec1 :=
  { nota := p.1.nota
    controle := p.1.controle
    emissaoOpt := parseDate p.1.emissao
    entradaOpt := parseDate p.1.entrada
    pendente := today - ((parseDate p.1.emissao).getD 0 : Int)
    pendenteEntrada := today - ((parseDate p.1.entrada).getD 0 : Int)
    fornecedor := p.2
    filialDestino := p.1.filial }

/-- The line-103/109 column projection: Entrada and Pendente as are dropped. -/
structure Rec1F where
  nota : Value
  controle : Value
  emissaoOpt : Option Nat
  pendente : Int
  fornecedor : Option Value
  filialDestino : Int
deriving DecidableEq

def selectRec1 (r : Rec1) : Rec1F :=
  { nota := r.nota, controle := r.controle, emissaoOpt := r.emissaoOpt,
    pendente := r.pendente, fornecedor := r.fornecedor,
    filialDestino := r.filialDestino }

/-- Line 121: Priority = 1 when Pendente a >= 10, else 0. -/
def priority1 (r : Rec1F) : Int := if 10 ≤ r.pendente then 1 else 0

/-- Line-124 composite key: sort_values(by=[Priority, Filial Destino,
Pendente a], ascending=[False, True, False]). -/
def key1 (r : Rec1F) : Int × Int × Int :=
  (-priority1 r, r.filialDestino, -r.pendente)

def le1 (a b : Rec1F) : Bool := lexLe3 (key1 a) (key1 b)

/-- process_dataframe lines 59-124 (up to the Priority drop): classification,
renames, date coercion, the line-90 exclusion of destination 98, the line-91
dropna on both dates, pending days, the line-100 cutoff Pendente a >= 7, the
column projection and the stable multi-column sort. -/
def cutoff1 (raw : List RawRow1) (today : Int) : List Rec1 :=
  let recs := (classified1 raw).map (buildRec1 today)
  let noSentinel := recs.filter (fun r => r.filialDestino != 98)
  let parsed := noSentinel.filter (fun r => !r.emissaoOpt.isNone && !r.entradaOpt.isNone)
  parsed.filter (fun r => 7 ≤ r.pendente)

def preSort1 (raw : List RawRow1) (today : Int) : List Rec1F :=
  (cutoff1 raw today).map selectRec1

def processDataframe (raw : List RawRow1) (today : Int) : List Rec1F :=
  List.mergeSort (preSort1 raw today) le1

/-- The lines 129-130 tail of process_dataframe: Filial Destino relabelled to
the string F<n> and the blank Justificativa column added. -/
structure Rec1Out where
  nota : Value
  controle : Value
  emissaoOpt : Option Nat
  pendente : Int
  fornecedor : Option Value
  filialLabel : List Char
  justificativa : List Char
deriving DecidableEq

def labelRec1 (r : Rec1F) : Rec1Out :=
  { nota := r.nota, controle := r.controle, emissaoOpt := r.emissaoOpt,
    pendente := r.pendente, fornecedor := r.fornecedor,
    filialLabel := ("F" ++ toString r.filialDestino).data,
    justificativa := [] }

def processDataframeOut (raw : List RawRow1) (today : Int) : List Rec1Out :=
  (processDataframe raw today).map labelRec1

/-! Column bookkeeping of process_dataframe, for the claim that Priority is a
sort key only and never a column of the output table. -/

/-- The line-103 column selection. -/
def cols1Select : List String :=
  ["Nota", "Controle", "Emissão", "Pendente a", "Entrada", "Pendente as",
   "Fornecedor", "Filial Destino"]

/-- Line 109: df.drop([Entrada, Pendente as], axis=1). -/
def cols1AfterDrop : List String :=
  cols1Select.filter (fun c => c != "Entrada" && c != "Pendente as")

/-- Line 121 adds the Priority column. -/
def cols1WithPriority : List String := cols1AfterDrop ++ ["Priority"]

/-- Lines 127-130: Priority dropped again, Justificativa added.  These are the
columns of the published variant-1 table. -/
def cols1Final : List String :=
  (cols1WithPriority.filter (fun c => c != "Priority")) ++ ["Justificativa"]

/-! ## Sheet Publisher, variant 2 (update_worksheet, lines 127-222) -/

/-- A serialized sheet row. -/
abbrev Row := List Value

/-- strftime of a day number; an arbitrary fixed rendering stands in for the
%d/%m/%Y format, which no claim inspects. -/
def dateFmt (d : Nat) : List Char := (toString d).data

/-- make_serializable (lines 144-168): missing values become the empty string,
date-like values a formatted date string, everything else passes through.
(The float-NaN re-check of the source is the vnone case here.) -/
def makeSerializable : Value → Value
  | .vnone => .vstr []
  | .vdate d => .vstr (dateFmt d)
  | v => v

/-- Observable effects of update_worksheet on the remote sheet, in order. -/
inductive SheetEffect where
  | clear
  | write (startRow : Nat) (values : List Row)
  | formatHeader
deriving DecidableEq

/-- Chunk size of the line-180 upload loop. -/
def chunkSize : Nat := 5000

/-- The indices of range(0, n, 5000): one start index per chunk. -/
def chunkStarts (n : Nat) : List Nat :=
  (List.range ((n + chunkSize - 1) / chunkSize)).map (fun k => k * chunkSize)

/-- The serialized payload: header row, then each data row passed cellwise
through make_serializable (lines 171-177). -/
def sheetData (header : Row) (rows : List Row) : List Row :=
  header :: rows.map (fun r => r.map makeSerializable)

/-- update_worksheet from src/scripts/process_and_upload_2.py, lines 127-222:
clear the sheet; if the frame is empty, stop; otherwise write the serialized
data in chunks of 5000 rows, the chunk beginning at data index i targeting
range A(i+1), and finally bold the header row.  (The worksheet lookup/creation
preceding clear resolves which sheet is written and mutates no content.) -/
def updateWorksheet (header : Row) (rows : List Row) : List SheetEffect :=
  if rows = [] then [SheetEffect.clear]
  else
    let data := sheetData header rows
    SheetEffect.clear ::
      (chunkStarts data.length).map
        (fun i => SheetEffect.write (i + 1) ((data.drop i).take chunkSize))
      ++ [SheetEffect.formatHeader]

/-- The write calls of an effect trace, with their target start rows. -/
def sheetWrites (effects : List SheetEffect) : List (Nat × List Row) :=
  effects.filterMap (fun e =>
    match e with
    | SheetEffect.write s v => some (s, v)
    | _ => none)

/-! ## retry_api_call (process_and_upload.py lines 42-52,
process_and_upload_2.py lines 26-37) -/

/-- Outcome of one attempted remote call: a value, or an HttpError carrying the
response status. -/
inductive ApiOutcome (α : Type) where
  | ok (a : α)
  | httpErr (status : Nat)
deriving DecidableEq

/-- How a retry_api_call invocation ends: the wrapped value returned, an
HttpError re-raised, or the max-retries exception.  calls is the number of
attempts made; sleeps the list of delays slept, in seconds. -/
inductive RetryResult (α : Type) where
  | returned (a : α) (calls : Nat) (sleeps : List Nat)
  | raised (status : Nat) (calls : Nat) (sleeps : List Nat)
  | maxRetries (calls : Nat) (sleeps : List Nat)
deriving DecidableEq

/-- The for-loop of retry_api_call: attempt i of the budget; a 500 sleeps
delay seconds and continues, any other HttpError re-raises, an exhausted budget
raises the max-retries error. -/
def retryGo (f : Nat → ApiOutcome α) (delay : Nat) : Nat → Nat → List Nat → RetryResult α
  | i, 0, sleeps => .maxRetries i sleeps
  | i, r + 1, sleeps =>
    match f i with
    | .ok a => .returned a (i + 1) sleeps
    | .httpErr s =>
      if s = 500 then retryGo f delay (i + 1) r (sleeps ++ [delay])
      else .raised s (i + 1) sleeps

/-- retry_api_call(func, retries=3, delay=2); f i is the outcome of the i-th
call of func. -/
def retryApiCall (f : Nat → ApiOutcome α) (retries : Nat := 3) (delay : Nat := 2) :
    RetryResult α :=
  retryGo f delay 0 retries []

/-! ## Theorems -/

/-- Head of a nonzero-length take of a cons. -/
lemma head_take_cons {α : Type} (a : α) (l : List α) {n : Nat} (h : n ≠ 0) :
    ((a :: l).take n).head? = some a := by
  cases n with
  | zero => exact absurd rfl h
  | succ m => rfl

/-- C10: for an empty input table, update_worksheet clears the worksheet and
returns at once: the effect trace is exactly the clear — no write call is
issued, in particular the header row is not written, and no error is raised
(the embedding is a total function into effect traces). -/
theorem c10_empty_table_only_clears (header : Row) :
    updateWorksheet header [] = [SheetEffect.clear] ∧
    sheetWrites (updateWorksheet header []) = [] := by
  constructor
  · simp [updateWorksheet]
  · simp [updateWorksheet, sheetWrites]

/-- C1: publishing a table of 12000 data rows produces exactly 3 write calls,
at A1, A5001, A10001 — each start row is one plus the data index of its first
serialized row — the chunks concatenate back to the serialized data (no chunk
boundary splits a row), and the header row is the first row of the first chunk
(it occupies data index 0, which lies in the first chunk only). -/
theorem c1_chunked_publish (header : Row) (rows : List Row)
    (h : rows.length = 12000) :
    sheetWrites (updateWorksheet header rows) =
      [(1, (sheetData header rows).take 5000),
       (5001, ((sheetData header rows).drop 5000).take 5000),
       (10001, (sheetData header rows).drop 10000)] ∧
    (sheetWrites (updateWorksheet header rows)).length = 3 ∧
    (sheetWrites (updateWorksheet header rows)).map Prod.fst = [1, 5001, 10001] ∧
    ((sheetWrites (updateWorksheet header rows)).map Prod.snd).flatten
      = sheetData header rows ∧
    ((sheetData header rows).take 5000).head? = some header := by
  have hne : rows ≠ [] := by
    intro e
    rw [e] at h
    simp at h
  have hd : (sheetData header rows).length = 12001 := by
    simp [sheetData, h]
  have hcs : chunkStarts 12001 = [0, 5000, 10000] := by decide
  have hlast : ((sheetData header rows).drop 10000).take chunkSize
      = (sheetData header rows).drop 10000 := by
    apply List.take_of_length_le
    rw [List.length_drop, hd]
    norm_num [chunkSize]
  have hw : sheetWrites (updateWorksheet header rows) =
      [(1, (sheetData header rows).take 5000),
       (5001, ((sheetData header rows).drop 5000).take 5000),
       (10001, (sheetData header rows).drop 10000)] := by
    rw [updateWorksheet, if_neg hne]
    show sheetWrites (SheetEffect.clear ::
      (chunkStarts (sheetData header rows).length).map
        (fun i => SheetEffect.write (i + 1) (((sheetData header rows).drop i).take chunkSize))
      ++ [SheetEffect.formatHeader]) = _
    rw [hd, hcs]
    simp only [List.map_cons, List.map_nil, sheetWrites, List.filterMap,
      List.drop_zero]
    rw [hlast]
    norm_num [chunkSize]
  refine ⟨hw, by rw [hw]; rfl, by rw [hw]; rfl, ?_, ?_⟩
  · rw [hw]
    have hdd : ((sheetData header rows).drop 5000).drop 5000
        = (sheetData header rows).drop 10000 := by
      rw [List.drop_drop]
    show (sheetData header rows).take 5000 ++
      (((sheetData header rows).drop 5000).take 5000 ++
        ((sheetData header rows).drop 10000 ++ [])) = sheetData header rows
    rw [List.append_nil, ← hdd, List.take_append_drop, List.take_append_drop]
  · show ((header :: rows.map (fun r => r.map makeSerializable)).take 5000).head?
      = some header
    exact head_take_cons _ _ (by norm_num)

/-- Closed instance of C1 at a concrete 12000-row table, discharging the
length hypothesis. -/
theorem c1_chunked_publish_witness :
    (List.replicate 12000 ([] : Row)).length = 12000 ∧
    (sheetWrites (updateWorksheet [Value.vnum 0] (List.replicate 12000 ([] : Row)))).map
      Prod.fst = [1, 5001, 10001] := by
  refine ⟨List.length_replicate 12000 ([] : Row), ?_⟩
  exact (c1_chunked_publish [Value.vnum 0] (List.replicate 12000 ([] : Row))
    (List.length_replicate 12000 ([] : Row))).2.2.1

/-- C9 counterexample: HTTP 502 is a server-side transient (5xx) error code,
yet retry_api_call does not retry it — the error is re-raised after a single
attempt, with no sleeps, because the code retries only on status exactly 500.
So the claim that every server-side transient error code is retried three
times with 2-second delays and then turned into the fatal max-retries error is
false at status 502. -/
theorem c9_counterexample_502_not_retried :
    retryApiCall ((fun _ => ApiOutcome.httpErr 502) : Nat → ApiOutcome Unit) 3 2
      = RetryResult.raised 502 1 [] ∧
    ¬ (∀ s : Nat, 500 ≤ s → s < 600 →
        retryApiCall ((fun _ => ApiOutcome.httpErr s) : Nat → ApiOutcome Unit) 3 2
          = RetryResult.maxRetries 3 [2, 2, 2]) := by
  refine ⟨rfl, fun hcl => ?_⟩
  have h := hcl 502 (by norm_num) (by norm_num)
  exact absurd h (by decide)

/-- C9 as amended: retry_api_call retries only on HTTP status exactly 500 —
up to 3 attempts, sleeping the fixed 2-second delay after each failed one, and
raising the fatal max-retries error when all 3 attempts return 500; an
HttpError with any other status, other 5xx codes included, is re-raised
immediately after the failing attempt with no retry; a successful call returns
its value at once. -/
theorem c9_retry_semantics (α : Type) :
    (∀ f : Nat → ApiOutcome α, (∀ i, i < 3 → f i = ApiOutcome.httpErr 500) →
        retryApiCall f 3 2 = RetryResult.maxRetries 3 [2, 2, 2]) ∧
    (∀ (f : Nat → ApiOutcome α) (s : Nat), f 0 = ApiOutcome.httpErr s → s ≠ 500 →
        retryApiCall f 3 2 = RetryResult.raised s 1 []) ∧
    (∀ (f : Nat → ApiOutcome α) (a : α), f 0 = ApiOutcome.ok a →
        retryApiCall f 3 2 = RetryResult.returned a 1 []) := by
  refine ⟨?_, ?_, ?_⟩
  · intro f hf
    have h0 := hf 0 (by norm_num)
    have h1 := hf 1 (by norm_num)
    have h2 := hf 2 (by norm_num)
    simp [retryApiCall, retryGo, h0, h1, h2]
  · intro f s h0 hs
    simp [retryApiCall, retryGo, h0, hs]
  · intro f a h0
    simp [retryApiCall, retryGo, h0]

/-- Closed instance of C9 as amended, at concrete call outcomes. -/
theorem c9_retry_semantics_witness :
    retryApiCall ((fun _ => ApiOutcome.httpErr 500) : Nat → ApiOutcome Unit) 3 2
      = RetryResult.maxRetries 3 [2, 2, 2] ∧
    retryApiCall ((fun _ => ApiOutcome.httpErr 404) : Nat → ApiOutcome Unit) 3 2
      = RetryResult.raised 404 1 [] ∧
    retryApiCall ((fun _ => ApiOutcome.ok ()) : Nat → ApiOutcome Unit) 3 2
      = RetryResult.returned () 1 [] :=
  ⟨(c9_retry_semantics Unit).1 _ (fun _ _ => rfl),
   (c9_retry_semantics Unit).2.1 _ 404 rfl (by norm_num),
   (c9_retry_semantics Unit).2.2 _ () rfl⟩

/-- The loop rendering and the mask rendering of a first cell agree on whether
it contains the Filial: tag (NaN renders as "" in the loop and "nan" in the
mask; neither contains the tag). -/
lemma hasSub_filial_loopStr (v : Value) :
    hasSub tagFilial (loopStr v) = hasSub tagFilial (pyStr v) := by
  cases v with
  | vnone => decide
  | vstr s => rfl
  | vnum n => rfl
  | vdate d => rfl

/-- Same agreement for the Fornecedor: tag. -/
lemma hasSub_fornecedor_loopStr (v : Value) :
    hasSub tagFornecedor (loopStr v) = hasSub tagFornecedor (pyStr v) := by
  cases v with
  | vnone => decide
  | vstr s => rfl
  | vnum n => rfl
  | vdate d => rfl

/-- Over a marker-free prefix the variant-2 scan emits the incoming carry pair
once per row and leaves the carry state unchanged. -/
lemma collect2_append_of_no_marker (pre suf : List RawRow2)
    (fil forn : Option Value) (h : ∀ r ∈ pre, isMarker2 r = false) :
    collect2 (pre ++ suf) fil forn
      = pre.map (fun _ => (fil, forn)) ++ collect2 suf fil forn := by
  induction pre with
  | nil => rfl
  | cons r pre ih =>
    have hr : isMarker2 r = false := h r (List.mem_cons_self r pre)
    have h1 : hasSub tagFilial (loopStr r.c0) = false := by
      rw [hasSub_filial_loopStr]
      simp only [isMarker2, Bool.or_eq_false_iff] at hr
      exact hr.1
    have h2 : hasSub tagFornecedor (loopStr r.c0) = false := by
      rw [hasSub_fornecedor_loopStr]
      simp only [isMarker2, Bool.or_eq_false_iff] at hr
      exact hr.2
    simp only [List.cons_append, collect2, h1, h2, Bool.false_eq_true, if_false,
      List.map_cons, List.append_eq]
    rw [ih (fun r hrr => h r (List.mem_cons_of_mem _ hrr))]

/-- Over a marker-free prefix the variant-1 scan emits the incoming carry once
per row and leaves it unchanged. -/
lemma collect1_append_of_no_marker (pre suf : List RawRow1)
    (forn : Option Value) (h : ∀ r ∈ pre, isMarker1 r = false) :
    collect1 (pre ++ suf) forn
      = pre.map (fun _ => forn) ++ collect1 suf forn := by
  induction pre with
  | nil => rfl
  | cons r pre ih =>
    have hr : isMarker1 r = false := h r (List.mem_cons_self r pre)
    simp only [List.cons_append, collect1, hr, Bool.false_eq_true, if_false,
      List.map_cons, List.append_eq]
    rw [ih (fun r hrr => h r (List.mem_cons_of_mem _ hrr))]

/-- zip of a list with a constant map over itself. -/
lemma zip_map_const {α β : Type} (l : List α) (b : β) :
    l.zip (l.map (fun _ => b)) = l.map (fun r => (r, b)) := by
  induction l with
  | nil => rfl
  | cons x l ih => simp only [List.map_cons, List.zip_cons_cons, ih]

/-- C5: marker rows are never emitted as records by either classifier — the
classified output of clean_transfer_file steps 3-4 contains no row whose first
cell contains Filial: or Fornecedor:, and the classified output of
process_dataframe lines 59-83 contains no row whose first cell equals
Fornecedor: — marker payloads are observable only as the carried values paired
with subsequent data rows; and every data row in a marker-free prefix of the
input receives the absent carry value (none) rather than causing a failure. -/
theorem c5_markers_never_records :
    (∀ (raw : List RawRow2) (p : RawRow2 × (Option Value × Option Value)),
        p ∈ classified2 raw → isMarker2 p.1 = false) ∧
    (∀ pre suf : List RawRow2, (∀ r ∈ pre, isMarker2 r = false) →
        classified2 (pre ++ suf)
          = pre.map (fun r => (r, (none, none))) ++ classified2 suf) ∧
    (∀ (raw : List RawRow1) (p : RawRow1 × Option Value),
        p ∈ classified1 raw → isMarker1 p.1 = false) ∧
    (∀ pre suf : List RawRow1, (∀ r ∈ pre, isMarker1 r = false) →
        classified1 (pre ++ suf)
          = pre.map (fun r => (r, none)) ++ classified1 suf) := by
  refine ⟨?_, ?_, ?_, ?_⟩
  · rintro raw ⟨a, m⟩ hp
    have ha : a ∈ dataRows2 raw := (List.of_mem_zip hp).1
    have := (List.mem_filter.mp ha).2
    simpa using this
  · intro pre suf h
    have hpre : pre.filter (fun r => !isMarker2 r) = pre :=
      List.filter_eq_self.mpr (fun r hr => by simp [h r hr])
    unfold classified2 dataRows2
    rw [List.filter_append, hpre,
      collect2_append_of_no_marker pre suf none none h,
      List.zip_append (by simp), zip_map_const]
  · rintro raw ⟨a, m⟩ hp
    have ha : a ∈ dataRows1 raw := (List.of_mem_zip hp).1
    have := (List.mem_filter.mp ha).2
    simpa using this
  · intro pre suf h
    have hpre : pre.filter (fun r => !isMarker1 r) = pre :=
      List.filter_eq_self.mpr (fun r hr => by simp [h r hr])
    unfold classified1 dataRows1
    rw [List.filter_append, hpre,
      collect1_append_of_no_marker pre suf none h,
      List.zip_append (by simp), zip_map_const]

/-- A concrete variant-2 data row (first cell is plain text, no marker tag). -/
def exRow2 : RawRow2 :=
  ⟨Value.vstr "12345".data, Value.vnone, Value.vdate 100, Value.vstr "77".data,
   Value.vnum 10, Value.vnum 1⟩

/-- A concrete variant-1 data row. -/
def exRow1 : RawRow1 :=
  ⟨Value.vstr "12345".data, Value.vnone, 5, Value.vdate 100, Value.vdate 101,
   Value.vstr "N1".data, Value.vstr "77".data⟩

/-- Closed instance of C5 at concrete one-row inputs. -/
theorem c5_markers_never_records_witness :
    ((exRow2, ((none : Option Value), (none : Option Value))) ∈ classified2 [exRow2] ∧
      isMarker2 exRow2 = false) ∧
    classified2 ([exRow2] ++ [])
      = [exRow2].map (fun r => (r, (none, none))) ++ classified2 [] ∧
    ((exRow1, (none : Option Value)) ∈ classified1 [exRow1] ∧
      isMarker1 exRow1 = false) ∧
    classified1 ([exRow1] ++ [])
      = [exRow1].map (fun r => (r, none)) ++ classified1 [] :=
  ⟨⟨by decide, c5_markers_never_records.1 [exRow2] (exRow2, (none, none)) (by decide)⟩,
   c5_markers_never_records.2.1 [exRow2] [] (by decide),
   ⟨by decide, c5_markers_never_records.2.2.1 [exRow1] (exRow1, none) (by decide)⟩,
   c5_markers_never_records.2.2.2 [exRow1] [] (by decide)⟩

/-- C2 counterexample: a variant-1 data row whose control number cell is
missing but whose dates parse.  process_dataframe has no control-number
filter, so the row survives to the published output with a null Controle
field, contradicting the claim that such rows are absent from the output of
every pipeline variant. -/
def cexRow1 : RawRow1 :=
  ⟨Value.vstr "123".data, Value.vnone, 5, Value.vdate 100, Value.vdate 101,
   Value.vstr "N".data, Value.vnone⟩

/-- C2 counterexample theorem: running process_dataframe on the single row
cexRow1 (missing control number, valid dates, destination 5, runtime day 110,
hence 10 pending days) produces exactly one output record, and its control
number is the missing value. -/
theorem c2_counterexample_null_controle :
    (processDataframeOut [cexRow1] 110).map (fun r => r.controle) = [Value.vnone] ∧
    (processDataframeOut [cexRow1] 110).length = 1 := by
  have hp : preSort1 [cexRow1] 110 = [selectRec1 (buildRec1 110 (cexRow1, none))] := by
    decide
  refine ⟨?_, ?_⟩ <;>
    rw [processDataframeOut, processDataframe, hp, List.mergeSort_singleton] <;> decide

/-- A record surviving the line-91 dropna (inside the cutoff stage) has both
dates parsed. -/
lemma mem_cutoff1_dates (raw : List RawRow1) (today : Int) (rec : Rec1)
    (h : rec ∈ cutoff1 raw today) :
    rec.emissaoOpt ≠ none ∧ rec.entradaOpt ≠ none := by
  simp only [cutoff1] at h
  obtain ⟨h2, _⟩ := List.mem_filter.mp h
  obtain ⟨_, hdates⟩ := List.mem_filter.mp h2
  simp only [Bool.and_eq_true] at hdates
  constructor
  · intro heq
    rw [heq] at hdates
    simp at hdates
  · intro heq
    rw [heq] at hdates
    simp at hdates

/-- C2 as amended: in the clean_transfer_file variant every output record has
a present control number and a parsed issue date; in the process_dataframe
variant every record surviving normalization has parsed issue and entry dates
(the entry-date column is then dropped from the published projection, whose
records keep the parsed issue date), but records with a missing control number
are retained there — the control-number invariant holds only in the
clean_transfer_file variant. -/
theorem c2_required_fields :
    (∀ (raw : List RawRow2) (today : Int) (rec : Rec2),
        rec ∈ cleanTransferFile raw today →
          rec.controle ≠ Value.vnone ∧ rec.emissaoOpt ≠ none) ∧
    (∀ (raw : List RawRow1) (today : Int) (rec : Rec1),
        rec ∈ cutoff1 raw today →
          rec.emissaoOpt ≠ none ∧ rec.entradaOpt ≠ none) ∧
    (∀ (raw : List RawRow1) (today : Int) (rec : Rec1F),
        rec ∈ processDataframe raw today → rec.emissaoOpt ≠ none) := by
  refine ⟨?_, ?_, ?_⟩
  · intro raw today rec hrec
    rw [cleanTransferFile, List.mem_mergeSort] at hrec
    simp only [preSort2] at hrec
    obtain ⟨hmem, hpar⟩ := List.mem_filter.mp hrec
    obtain ⟨p, hp, hbuild⟩ := List.mem_map.mp hmem
    obtain ⟨hp2, hctrl⟩ := List.mem_filter.mp hp
    constructor
    · rw [← hbuild]
      show p.1.c3 ≠ Value.vnone
      simpa using hctrl
    · intro heq
      rw [heq] at hpar
      simp at hpar
  · intro raw today rec hrec
    exact mem_cutoff1_dates raw today rec hrec
  · intro raw today rec hrec
    rw [processDataframe, List.mem_mergeSort] at hrec
    rw [preSort1] at hrec
    obtain ⟨q, hq, hsel⟩ := List.mem_map.mp hrec
    rw [← hsel]
    show q.emissaoOpt ≠ none
    exact (mem_cutoff1_dates raw today q hq).1

/-- Evaluation of the variant-2 pipeline on the concrete one-row input. -/
lemma cleanTransferFile_exRow2 :
    cleanTransferFile [exRow2] 110 = [buildRec2 110 (exRow2, (none, none))] := by
  have hp : preSort2 [exRow2] 110 = [buildRec2 110 (exRow2, (none, none))] := by decide
  rw [cleanTransferFile, hp, List.mergeSort_singleton]

/-- Evaluation of the variant-1 pipeline on the concrete one-row input. -/
lemma processDataframe_exRow1 :
    processDataframe [exRow1] 110 = [selectRec1 (buildRec1 110 (exRow1, none))] := by
  have hp : preSort1 [exRow1] 110 = [selectRec1 (buildRec1 110 (exRow1, none))] := by
    decide
  rw [processDataframe, hp, List.mergeSort_singleton]

/-- Closed instance of C2 as amended, at concrete one-row inputs. -/
theorem c2_required_fields_witness :
    (buildRec2 110 (exRow2, (none, none)) ∈ cleanTransferFile [exRow2] 110 ∧
      (buildRec2 110 (exRow2, (none, none))).controle ≠ Value.vnone ∧
      (buildRec2 110 (exRow2, (none, none))).emissaoOpt ≠ none) ∧
    (buildRec1 110 (exRow1, none) ∈ cutoff1 [exRow1] 110 ∧
      (buildRec1 110 (exRow1, none)).emissaoOpt ≠ none ∧
      (buildRec1 110 (exRow1, none)).entradaOpt ≠ none) ∧
    (selectRec1 (buildRec1 110 (exRow1, none)) ∈ processDataframe [exRow1] 110 ∧
      (selectRec1 (buildRec1 110 (exRow1, none))).emissaoOpt ≠ none) := by
  have h2 : buildRec2 110 (exRow2, (none, none)) ∈ cleanTransferFile [exRow2] 110 := by
    rw [cleanTransferFile_exRow2]
    exact List.mem_cons_self _ _
  have hc : buildRec1 110 (exRow1, none) ∈ cutoff1 [exRow1] 110 := by decide
  have h1 : selectRec1 (buildRec1 110 (exRow1, none)) ∈ processDataframe [exRow1] 110 := by
    rw [processDataframe_exRow1]
    exact List.mem_cons_self _ _
  exact ⟨⟨h2, c2_required_fields.1 [exRow2] 110 _ h2⟩,
    ⟨hc, c2_required_fields.2.1 [exRow1] 110 _ hc⟩,
    ⟨h1, c2_required_fields.2.2 [exRow1] 110 _ h1⟩⟩

/-- C6: in the process_dataframe variant, every record that survives
normalization has a destination branch different from the sentinel 98 (line
90) and at least 7 pending days (line 100), and the published table is
exactly the sorted table relabelled by F-prefixing the destination and adding
the blank Justificativa column. -/
theorem c6_sentinel_and_cutoff :
    (∀ (raw : List RawRow1) (today : Int) (rec : Rec1F),
        rec ∈ processDataframe raw today →
          rec.filialDestino ≠ 98 ∧ 7 ≤ rec.pendente) ∧
    (∀ (raw : List RawRow1) (today : Int),
        processDataframeOut raw today = (processDataframe raw today).map labelRec1) := by
  constructor
  · intro raw today rec hrec
    rw [processDataframe, List.mem_mergeSort] at hrec
    simp only [preSort1, cutoff1] at hrec
    obtain ⟨q, hq, hsel⟩ := List.mem_map.mp hrec
    obtain ⟨hq2, hcut⟩ := List.mem_filter.mp hq
    obtain ⟨hq3, _⟩ := List.mem_filter.mp hq2
    obtain ⟨_, hsent⟩ := List.mem_filter.mp hq3
    rw [← hsel]
    refine ⟨?_, ?_⟩
    · show q.filialDestino ≠ 98
      simpa using hsent
    · show 7 ≤ q.pendente
      simpa using hcut
  · intro raw today
    rfl

/-- Closed instance of C6 at a concrete one-row input. -/
theorem c6_sentinel_and_cutoff_witness :
    selectRec1 (buildRec1 110 (exRow1, none)) ∈ processDataframe [exRow1] 110 ∧
    ((selectRec1 (buildRec1 110 (exRow1, none))).filialDestino ≠ 98 ∧
      7 ≤ (selectRec1 (buildRec1 110 (exRow1, none))).pendente) := by
  have h1 : selectRec1 (buildRec1 110 (exRow1, none)) ∈ processDataframe [exRow1] 110 := by
    rw [processDataframe_exRow1]
    exact List.mem_cons_self _ _
  exact ⟨h1, c6_sentinel_and_cutoff.1 [exRow1] 110 _ h1⟩

/-- The lexicographic triple comparison is transitive. -/
lemma lexLe3_trans (a b c : Int × Int × Int)
    (hab : lexLe3 a b = true) (hbc : lexLe3 b c = true) : lexLe3 a c = true := by
  simp only [lexLe3, Bool.or_eq_true, Bool.and_eq_true, decide_eq_true_eq,
    beq_iff_eq] at *
  omega

/-- The lexicographic triple comparison is total. -/
lemma lexLe3_total (a b : Int × Int × Int) :
    (lexLe3 a b || lexLe3 b a) = true := by
  simp only [lexLe3, Bool.or_eq_true, Bool.and_eq_true, decide_eq_true_eq,
    beq_iff_eq]
  omega

/-- The lexicographic triple comparison is reflexive. -/
lemma lexLe3_refl (a : Int × Int × Int) : lexLe3 a a = true := by
  simp [lexLe3]

/-- C7: the variant-1 sorter orders the table by the composite key of line 124
— urgency flag (Pendente a at least 10) descending, then Filial Destino
ascending, then Pendente a descending, which is exactly le1 built from key1 —
the sorted table is a permutation of its input, and the Priority column used
to encode the urgency flag is dropped again before output: it is not among
the published columns. -/
theorem c7_composite_sort_key :
    (∀ (raw : List RawRow1) (today : Int),
        (processDataframe raw today).Pairwise (fun a b => le1 a b = true)) ∧
    (∀ (raw : List RawRow1) (today : Int),
        (processDataframe raw today).Perm (preSort1 raw today)) ∧
    "Priority" ∉ cols1Final := by
  refine ⟨?_, ?_, by decide⟩
  · intro raw today
    exact List.sorted_mergeSort
      (fun a b c => lexLe3_trans (key1 a) (key1 b) (key1 c))
      (fun a b => lexLe3_total (key1 a) (key1 b))
      (preSort1 raw today)
  · intro raw today
    exact List.mergeSort_perm (preSort1 raw today) le1

/-- C8: both sorts are stable — two records carrying identical sort keys keep
their relative input order in the sorted output (as a pair sublist), in the
variant-1 sort by key1 and the variant-2 sort by key2. -/
theorem c8_sort_stable :
    (∀ (raw : List RawRow1) (today : Int) (a b : Rec1F), key1 a = key1 b →
        List.Sublist [a, b] (preSort1 raw today) → List.Sublist [a, b] (processDataframe raw today)) ∧
    (∀ (raw : List RawRow2) (today : Int) (a b : Rec2), key2 a = key2 b →
        List.Sublist [a, b] (preSort2 raw today) → List.Sublist [a, b] (cleanTransferFile raw today)) := by
  constructor
  · intro raw today a b hk hsub
    have hab : le1 a b = true := by
      rw [le1, hk]
      exact lexLe3_refl (key1 b)
    exact List.pair_sublist_mergeSort
      (fun x y z => lexLe3_trans (key1 x) (key1 y) (key1 z))
      (fun x y => lexLe3_total (key1 x) (key1 y)) hab hsub
  · intro raw today a b hk hsub
    have hab : le2 a b = true := by
      rw [le2, hk]
      exact lexLe3_refl (key2 b)
    exact List.pair_sublist_mergeSort
      (fun x y z => lexLe3_trans (key2 x) (key2 y) (key2 z))
      (fun x y => lexLe3_total (key2 x) (key2 y)) hab hsub

/-- Closed instance of C8 at concrete two-row inputs whose two records carry
identical sort keys. -/
theorem c8_sort_stable_witness :
    (key1 (selectRec1 (buildRec1 110 (exRow1, none)))
        = key1 (selectRec1 (buildRec1 110 (exRow1, none))) ∧
      List.Sublist
        [selectRec1 (buildRec1 110 (exRow1, none)), selectRec1 (buildRec1 110 (exRow1, none))]
        (preSort1 [exRow1, exRow1] 110) ∧
      List.Sublist
        [selectRec1 (buildRec1 110 (exRow1, none)), selectRec1 (buildRec1 110 (exRow1, none))]
        (processDataframe [exRow1, exRow1] 110)) ∧
    (key2 (buildRec2 110 (exRow2, (none, none)))
        = key2 (buildRec2 110 (exRow2, (none, none))) ∧
      List.Sublist
        [buildRec2 110 (exRow2, (none, none)), buildRec2 110 (exRow2, (none, none))]
        (preSort2 [exRow2, exRow2] 110) ∧
      List.Sublist
        [buildRec2 110 (exRow2, (none, none)), buildRec2 110 (exRow2, (none, none))]
        (cleanTransferFile [exRow2, exRow2] 110)) := by
  have hp1 : preSort1 [exRow1, exRow1] 110
      = [selectRec1 (buildRec1 110 (exRow1, none)),
         selectRec1 (buildRec1 110 (exRow1, none))] := by decide
  have hp2 : preSort2 [exRow2, exRow2] 110
      = [buildRec2 110 (exRow2, (none, none)), buildRec2 110 (exRow2, (none, none))] := by
    decide
  have hs1 : List.Sublist [selectRec1 (buildRec1 110 (exRow1, none)),
      selectRec1 (buildRec1 110 (exRow1, none))] (preSort1 [exRow1, exRow1] 110) := by
    rw [hp1]
  have hs2 : List.Sublist
      [buildRec2 110 (exRow2, (none, none)), buildRec2 110 (exRow2, (none, none))]
      (preSort2 [exRow2, exRow2] 110) := by
    rw [hp2]
  exact ⟨⟨rfl, hs1, c8_sort_stable.1 [exRow1, exRow1] 110 _ _ rfl hs1⟩,
    ⟨rfl, hs2, c8_sort_stable.2 [exRow2, exRow2] 110 _ _ rfl hs2⟩⟩

/-! ## Lemmas about strip, digits and simplify_fornecedor -/

/-- pyStrip output has no leading whitespace. -/
lemma dropWhile_pyStrip (l : List Char) :
    (pyStrip l).dropWhile isPySpace = pyStrip l := by
  cases hn : pyStrip l with
  | nil => rfl
  | cons a t =>
    have hpre : List.IsPrefix (pyStrip l) (l.dropWhile isPySpace) :=
      List.rdropWhile_prefix isPySpace (l.dropWhile isPySpace)
    rw [hn] at hpre
    obtain ⟨r, hr⟩ := hpre
    have hy : (l.dropWhile isPySpace).head? = some a := by
      rw [← hr]
      rfl
    have hp : isPySpace a = false := by
      have h := List.head?_dropWhile_not isPySpace l
      rw [hy] at h
      exact h
    rw [List.dropWhile_cons, hp]
    simp

/-- Python strip is idempotent. -/
lemma pyStrip_idem (l : List Char) : pyStrip (pyStrip l) = pyStrip l := by
  rw [pyStrip, dropWhile_pyStrip, pyStrip]
  exact List.rdropWhile_idempotent isPySpace (l.dropWhile isPySpace)

/-- A list without whitespace is fixed by rdropWhile. -/
lemma rdropWhile_of_no_space (l : List Char) (h : ∀ c ∈ l, isPySpace c = false) :
    List.rdropWhile isPySpace l = l :=
  List.rdropWhile_eq_self_iff.mpr (fun hl => by simp [h _ (List.getLast_mem hl)])

/-- A string without whitespace is fixed by strip. -/
lemma pyStrip_of_no_space (l : List Char) (h : ∀ c ∈ l, isPySpace c = false) :
    pyStrip l = l := by
  have h1 : l.dropWhile isPySpace = l := by
    cases l with
    | nil => rfl
    | cons a t =>
      rw [List.dropWhile_cons, h a (List.mem_cons_self a t)]
      simp
  rw [pyStrip, h1]
  exact List.rdropWhile_eq_self_iff.mpr
    (fun hl => by simp [h _ (List.getLast_mem hl)])

/-- Digit characters have numeric codes between 48 and 57. -/
lemma toNat_bounds_of_isDigit (c : Char) (h : c.isDigit = true) :
    48 ≤ c.toNat ∧ c.toNat ≤ 57 := by
  simp only [Char.isDigit, ge_iff_le, Bool.and_eq_true, decide_eq_true_eq] at h
  exact ⟨UInt32.le_toNat_of_le (by norm_num [UInt32.size]) h.1,
    UInt32.toNat_le_of_le (by norm_num [UInt32.size]) h.2⟩

/-- A digit character is recovered from its digit value. -/
lemma digitChar_digitVal (c : Char) (h : c.isDigit = true) :
    digitChar (digitVal c) = c := by
  obtain ⟨h1, h2⟩ := toNat_bounds_of_isDigit c h
  have hc : c = Char.ofNat c.toNat := (Char.ofNat_toNat c).symm
  unfold digitVal
  set t := c.toNat with ht
  interval_cases t <;> rw [hc] <;> decide

/-- digitChar yields digits. -/
lemma isDigit_digitChar (k : Nat) : (digitChar k).isDigit = true := by
  unfold digitChar
  split <;> decide

/-- digitChar is left inverse to digitVal below 10. -/
lemma digitVal_digitChar (k : Nat) (h : k < 10) : digitVal (digitChar k) = k := by
  interval_cases k <;> decide

/-- A digit value is below 10. -/
lemma digitVal_lt_ten (c : Char) (h : c.isDigit = true) : digitVal c < 10 := by
  obtain ⟨h1, h2⟩ := toNat_bounds_of_isDigit c h
  unfold digitVal
  have : '0'.toNat = 48 := rfl
  omega

/-- Digits are not whitespace. -/
lemma isPySpace_digitChar (k : Nat) : isPySpace (digitChar k) = false := by
  unfold digitChar
  split <;> decide

/-- Digit characters are not whitespace. -/
lemma isPySpace_of_digit (c : Char) (h : c.isDigit = true) : isPySpace c = false := by
  rw [← digitChar_digitVal c h]
  exact isPySpace_digitChar _

/-- One step of digitsToNatAux. -/
lemma digitsToNatAux_cons (a : Nat) (c : Char) (t : List Char) :
    digitsToNatAux a (c :: t) = digitsToNatAux (a * 10 + digitVal c) t := rfl

/-- int() of a cons in accumulator form. -/
lemma digitsToNat_cons (c : Char) (t : List Char) :
    digitsToNat (c :: t) = digitsToNatAux (digitVal c) t := by
  show digitsToNatAux (0 * 10 + digitVal c) t = digitsToNatAux (digitVal c) t
  norm_num

/-- The accumulator of digitsToNatAux weights by the remaining length. -/
lemma digitsToNatAux_eq (l : List Char) :
    ∀ a : Nat, digitsToNatAux a l = a * 10 ^ l.length + digitsToNat l := by
  induction l with
  | nil =>
    intro a
    show a = a * 10 ^ (0 : Nat) + 0
    norm_num
  | cons c t ih =>
    intro a
    rw [digitsToNatAux_cons, ih (a * 10 + digitVal c), digitsToNat_cons,
      ih (digitVal c), List.length_cons]
    ring

/-- digitsToNatAux distributes over append. -/
lemma digitsToNatAux_append (l m : List Char) :
    ∀ a : Nat, digitsToNatAux a (l ++ m) = digitsToNatAux (digitsToNatAux a l) m := by
  induction l with
  | nil => intro a; rfl
  | cons c t ih => intro a; exact ih (a * 10 + digitVal c)

/-- int() of a numeral extended by one digit. -/
lemma digitsToNat_concat (l : List Char) (c : Char) :
    digitsToNat (l ++ [c]) = digitsToNat l * 10 + digitVal c := by
  show digitsToNatAux 0 (l ++ [c]) = digitsToNat l * 10 + digitVal c
  rw [digitsToNatAux_append l [c] 0]
  rfl

/-- int() of a singleton digit string. -/
lemma digitsToNat_singleton (c : Char) : digitsToNat [c] = digitVal c := by
  rw [digitsToNat_cons]
  rfl

/-- Every character of a canonical numeral is a digit. -/
lemma natToDigits_digits (n : Nat) : ∀ c ∈ natToDigits n, c.isDigit = true := by
  induction n using Nat.strong_induction_on with
  | _ n ih =>
    intro c hc
    rw [natToDigits] at hc
    by_cases h : n < 10
    · rw [dif_pos h] at hc
      rw [List.mem_singleton.mp hc]
      exact isDigit_digitChar n
    · rw [dif_neg h] at hc
      rcases List.mem_append.mp hc with h1 | h2
      · exact ih (n / 10) (Nat.div_lt_self (by omega) (by omega)) c h1
      · rw [List.mem_singleton.mp h2]
        exact isDigit_digitChar (n % 10)

/-- Canonical numerals are nonempty. -/
lemma natToDigits_ne_nil (n : Nat) : natToDigits n ≠ [] := by
  rw [natToDigits]
  by_cases h : n < 10
  · rw [dif_pos h]
    simp
  · rw [dif_neg h]
    simp

/-- int() inverts the canonical numeral. -/
lemma digitsToNat_natToDigits (n : Nat) : digitsToNat (natToDigits n) = n := by
  induction n using Nat.strong_induction_on with
  | _ n ih =>
    rw [natToDigits]
    by_cases h : n < 10
    · rw [dif_pos h, digitsToNat_singleton, digitVal_digitChar n h]
    · rw [dif_neg h, digitsToNat_concat,
        ih (n / 10) (Nat.div_lt_self (by omega) (by omega)),
        digitVal_digitChar (n % 10) (Nat.mod_lt n (by omega))]
      have := Nat.div_add_mod n 10
      omega

/-- int() of a numeral with a nonzero leading digit is at least 1. -/
lemma digitsToNat_pos (c : Char) (t : List Char) (hc : c.isDigit = true)
    (h0 : c ≠ '0') : 1 ≤ digitsToNat (c :: t) := by
  have hv : 1 ≤ digitVal c := by
    obtain ⟨h1, h2⟩ := toNat_bounds_of_isDigit c hc
    have hne : c.toNat ≠ 48 := by
      intro he
      apply h0
      have hco := Char.ofNat_toNat c
      rw [he] at hco
      exact hco.symm
    have h48 : '0'.toNat = 48 := rfl
    unfold digitVal
    omega
  have hq : digitsToNat (c :: t) = digitVal c * 10 ^ t.length + digitsToNat t := by
    rw [digitsToNat_cons, digitsToNatAux_eq]
  have hp : 0 < 10 ^ t.length := Nat.pos_pow_of_pos t.length (by omega)
  have hmul : 1 ≤ digitVal c * 10 ^ t.length := by
    calc 1 = 1 * 1 := by norm_num
      _ ≤ digitVal c * 10 ^ t.length := Nat.mul_le_mul hv hp
  omega

/-- A digit string with a nonzero leading digit is the canonical numeral of
its int() value. -/
lemma natToDigits_digitsToNat (ds : List Char) :
    ds ≠ [] → (∀ c ∈ ds, c.isDigit = true) → ds.head? ≠ some '0' →
    natToDigits (digitsToNat ds) = ds := by
  induction ds using List.reverseRecOn with
  | nil => intro h; exact absurd rfl h
  | append_singleton l c ih =>
    intro _ hd h0
    cases l with
    | nil =>
      have hc : c.isDigit = true := hd c (by simp)
      have hlt : digitsToNat [c] < 10 := by
        rw [digitsToNat_singleton]
        exact digitVal_lt_ten c hc
      simp only [List.nil_append]
      rw [natToDigits, dif_pos hlt, digitsToNat_singleton, digitChar_digitVal c hc]
    | cons a t =>
      have hc : c.isDigit = true := hd c (by simp)
      have ha : a.isDigit = true := hd a (by simp)
      have ha0 : a ≠ '0' := by
        intro he
        apply h0
        rw [he]
        rfl
      have hpos : 1 ≤ digitsToNat (a :: t) := digitsToNat_pos a t ha ha0
      have hvc : digitVal c < 10 := digitVal_lt_ten c hc
      rw [digitsToNat_concat]
      have hge : ¬ (digitsToNat (a :: t) * 10 + digitVal c < 10) := by omega
      rw [natToDigits, dif_neg hge]
      have hdiv : (digitsToNat (a :: t) * 10 + digitVal c) / 10
          = digitsToNat (a :: t) := by omega
      have hmod : (digitsToNat (a :: t) * 10 + digitVal c) % 10 = digitVal c := by
        omega
      rw [hdiv, hmod, digitChar_digitVal c hc]
      rw [ih (by simp) (fun x hx => hd x (List.mem_append_left [c] hx))
        (by simpa using h0)]

/-- The digits of a numeral with its leading zeros removed — with a single 0
kept when the numeral consists of zeros only (the decimal rendering of the
value 0). -/
def stripLeadZeros (ds : List Char) : List Char :=
  match ds.dropWhile (fun c => c == '0') with
  | [] => ['0']
  | l => l

/-- Leading zeros do not change int(). -/
lemma digitsToNat_dropZeros (ds : List Char) :
    digitsToNat (ds.dropWhile (fun c => c == '0')) = digitsToNat ds := by
  induction ds with
  | nil => rfl
  | cons c t ih =>
    by_cases h : c = '0'
    · subst h
      rw [List.dropWhile_cons, if_pos (by decide), ih, digitsToNat_cons]
      rfl
    · rw [List.dropWhile_cons, if_neg (by simpa using h)]

/-- The canonical numeral of int() of a digit string is that string with its
leading zeros stripped. -/
lemma natToDigits_canonical (ds : List Char) (_hne : ds ≠ [])
    (hd : ∀ c ∈ ds, c.isDigit = true) :
    natToDigits (digitsToNat ds) = stripLeadZeros ds := by
  rw [← digitsToNat_dropZeros ds]
  cases h : ds.dropWhile (fun c => c == '0') with
  | nil =>
    have h0 : natToDigits (digitsToNat ([] : List Char)) = ['0'] := by
      show natToDigits 0 = ['0']
      rw [natToDigits, dif_pos (by norm_num)]
      rfl
    rw [h0]
    unfold stripLeadZeros
    rw [h]
  | cons a t =>
    have hy : (ds.dropWhile (fun c => c == '0')).head? = some a := by
      rw [h]
      rfl
    have ha0 : (a == '0') = false := by
      have hh := List.head?_dropWhile_not (fun c => c == '0') ds
      rw [hy] at hh
      exact hh
    have hsubl := List.dropWhile_sublist (fun c => c == '0') (l := ds)
    rw [h] at hsubl
    have hsub : ∀ x ∈ a :: t, x.isDigit = true :=
      fun x hx => hd x (hsubl.subset hx)
    rw [natToDigits_digitsToNat (a :: t) (by simp) hsub
      (by simp [show a ≠ '0' from by simpa using ha0])]
    unfold stripLeadZeros
    rw [h]

/-- rdropWhile over an append: the tail is trimmed; only when it vanishes
entirely does trimming reach the front part. -/
lemma rdropWhile_append (p : Char → Bool) (X Y : List Char) :
    List.rdropWhile p (X ++ Y)
      = if List.rdropWhile p Y = [] then List.rdropWhile p X
        else X ++ List.rdropWhile p Y := by
  rw [List.rdropWhile, List.reverse_append, List.dropWhile_append]
  by_cases h : (Y.reverse.dropWhile p).isEmpty
  · have h2 : List.rdropWhile p Y = [] := by
      rw [List.rdropWhile]
      simp only [List.isEmpty_iff] at h
      rw [h]
      rfl
    rw [if_pos h, if_pos h2, List.rdropWhile]
  · have h2 : List.rdropWhile p Y ≠ [] := by
      rw [List.rdropWhile]
      simp only [List.isEmpty_iff] at h
      simpa using h
    rw [if_neg h, if_neg h2, List.reverse_append, List.reverse_reverse,
      List.rdropWhile]

/-- Shape of the stripped matching input of the C3 scenario: stripping removes
nothing in front (the text starts with F) and keeps the digit block intact;
whatever remains of the tail is empty or still starts with the space. -/
lemma pyStrip_form (ds rest : List Char) (hds : ∀ c ∈ ds, c.isDigit = true) :
    ∃ T, pyStrip ('F' :: '0' :: ds ++ ' ' :: rest) = 'F' :: '0' :: ds ++ T ∧
      (T = [] ∨ ∃ t2, T = ' ' :: t2) := by
  have hdw : ('F' :: '0' :: ds ++ ' ' :: rest).dropWhile isPySpace
      = 'F' :: '0' :: ds ++ ' ' :: rest := by
    rw [List.cons_append, List.dropWhile_cons, if_neg (by decide)]
  rw [pyStrip, hdw, rdropWhile_append isPySpace ('F' :: '0' :: ds) (' ' :: rest)]
  by_cases h : List.rdropWhile isPySpace (' ' :: rest) = []
  · rw [if_pos h]
    refine ⟨[], ?_, Or.inl rfl⟩
    rw [List.append_nil]
    apply rdropWhile_of_no_space
    intro c hc
    rcases List.mem_cons.mp hc with rfl | hc2
    · decide
    · rcases List.mem_cons.mp hc2 with rfl | hc3
      · decide
      · exact isPySpace_of_digit _ (hds _ hc3)
  · rw [if_neg h]
    obtain ⟨c2, t2, hct⟩ := List.exists_cons_of_ne_nil h
    have hpre := List.rdropWhile_prefix isPySpace (' ' :: rest)
    rw [hct] at hpre
    obtain ⟨r, hr⟩ := hpre
    have hc2 : c2 = ' ' := by
      have hh := congrArg List.head? hr
      simpa using hh
    exact ⟨c2 :: t2, by rw [hct], Or.inr ⟨t2, by rw [hc2]⟩⟩

/-- takeWhile isDigit over digits followed by an empty or space-led tail. -/
lemma takeWhile_digits_append (ds T : List Char)
    (hds : ∀ c ∈ ds, c.isDigit = true) (hT : T = [] ∨ ∃ t2, T = ' ' :: t2) :
    (ds ++ T).takeWhile Char.isDigit = ds := by
  rw [List.takeWhile_append_of_pos hds]
  rcases hT with rfl | ⟨t2, rfl⟩
  · simp
  · rw [List.takeWhile_cons, if_neg (by decide)]
    simp

/-- C3 counterexample: GRANEL preceded by a space does not match the leading
F-digit token, yet simplify_fornecedor returns the whitespace-stripped text
GRANEL, not the input verbatim — because the function strips before matching. -/
theorem c3_counterexample_strip_not_verbatim :
    simplifyFornecedor (' ' :: "GRANEL".data) = "GRANEL".data ∧
    (' ' :: "GRANEL".data) ≠ "GRANEL".data := by
  constructor
  · decide
  · decide

/-- C3 as amended: supplier text of the form F0(digits)(space)... normalizes to
F followed by the digits with leading zeros stripped (a lone 0 when the digits
are all zeros); text whose stripped form does not start with F-then-digit is
returned whitespace-stripped — verbatim exactly when it carries no surrounding
whitespace. -/
theorem c3_simplify_normalizes :
    (∀ ds rest : List Char, ds ≠ [] → (∀ c ∈ ds, c.isDigit = true) →
        simplifyFornecedor ('F' :: '0' :: ds ++ ' ' :: rest)
          = 'F' :: stripLeadZeros ds) ∧
    (∀ s : List Char, fMatch (pyStrip s) = false →
        simplifyFornecedor s = pyStrip s) ∧
    (∀ s : List Char, pyStrip s = s → fMatch s = false →
        simplifyFornecedor s = s) := by
  refine ⟨?_, ?_, ?_⟩
  · intro ds rest hne hds
    obtain ⟨T, hv, hT⟩ := pyStrip_form ds rest hds
    have hv2 : pyStrip ('F' :: '0' :: ds ++ ' ' :: rest)
        = 'F' :: '0' :: (ds ++ T) := by
      rw [hv, List.cons_append, List.cons_append]
    have hfm : fMatch ('F' :: '0' :: (ds ++ T)) = true := by
      show ('F' == 'F' && '0'.isDigit) = true
      decide
    simp only [simplifyFornecedor, hv2, hfm, if_true]
    have htw : (('F' :: '0' :: (ds ++ T)).drop 1).takeWhile Char.isDigit
        = '0' :: ds := by
      show ('0' :: (ds ++ T)).takeWhile Char.isDigit = '0' :: ds
      rw [List.takeWhile_cons, if_pos (by decide),
        takeWhile_digits_append ds T hds hT]
    rw [htw]
    have h0 : digitsToNat ('0' :: ds) = digitsToNat ds := by
      rw [digitsToNat_cons]
      rfl
    rw [h0, natToDigits_canonical ds hne hds]
  · intro s hf
    simp only [simplifyFornecedor, hf]
    rfl
  · intro s hs hf
    simp only [simplifyFornecedor, hs, hf]
    rfl

/-- Closed instance of C3 as amended: the F01 - MATRIZ scenario normalizes to
F1, and unmatched whitespace-free text passes through verbatim. -/
theorem c3_simplify_normalizes_witness :
    ((['1'] : List Char) ≠ [] ∧ (∀ c ∈ (['1'] : List Char), c.isDigit = true)) ∧
    simplifyFornecedor ('F' :: '0' :: ['1'] ++ ' ' :: "- MATRIZ".data)
      = 'F' :: stripLeadZeros ['1'] ∧
    (fMatch (pyStrip (' ' :: "GRANEL".data)) = false ∧
      simplifyFornecedor (' ' :: "GRANEL".data) = pyStrip (' ' :: "GRANEL".data)) ∧
    (pyStrip "GRANEL".data = "GRANEL".data ∧ fMatch "GRANEL".data = false ∧
      simplifyFornecedor "GRANEL".data = "GRANEL".data) :=
  ⟨⟨by decide, by decide⟩,
   c3_simplify_normalizes.1 ['1'] "- MATRIZ".data (by decide) (by decide),
   ⟨by decide, c3_simplify_normalizes.2.1 (' ' :: "GRANEL".data) (by decide)⟩,
   ⟨by decide, by decide,
    c3_simplify_normalizes.2.2 "GRANEL".data (by decide) (by decide)⟩⟩

/-- C4: simplify_fornecedor is idempotent — applying it to its own output
returns that output unchanged; in particular the canonical code F3 maps to
itself. -/
theorem c4_simplify_idempotent :
    (∀ s : List Char,
        simplifyFornecedor (simplifyFornecedor s) = simplifyFornecedor s) ∧
    simplifyFornecedor "F3".data = "F3".data := by
  constructor
  case right =>
    have hnat : natToDigits 3 = ['3'] := by
      rw [natToDigits, dif_pos (by norm_num)]
      decide
    have h1 : pyStrip "F3".data = "F3".data := by decide
    have h2 : fMatch "F3".data = true := by decide
    simp only [simplifyFornecedor, h1, h2, if_true]
    have h3 : ("F3".data.drop 1).takeWhile Char.isDigit = ['3'] := by decide
    have h4 : digitsToNat ['3'] = 3 := by decide
    rw [h3, h4, hnat]
  intro s
  by_cases h : fMatch (pyStrip s) = true
  · have hres : simplifyFornecedor s
        = 'F' :: natToDigits (digitsToNat
            (((pyStrip s).drop 1).takeWhile Char.isDigit)) := by
      simp only [simplifyFornecedor, h, if_true]
    set m := digitsToNat (((pyStrip s).drop 1).takeWhile Char.isDigit) with hm
    obtain ⟨c, t, hct⟩ := List.exists_cons_of_ne_nil (natToDigits_ne_nil m)
    have hcdig : c.isDigit = true := by
      apply natToDigits_digits m
      rw [hct]
      exact List.mem_cons_self c t
    have hnos : ∀ x ∈ 'F' :: natToDigits m, isPySpace x = false := by
      intro x hx
      rcases List.mem_cons.mp hx with rfl | hx2
      · decide
      · exact isPySpace_of_digit x (natToDigits_digits m x hx2)
    have hstrip : pyStrip ('F' :: natToDigits m) = 'F' :: natToDigits m :=
      pyStrip_of_no_space _ hnos
    have hfm : fMatch ('F' :: natToDigits m) = true := by
      rw [hct]
      show ('F' == 'F' && c.isDigit) = true
      simp [hcdig]
    have htake : (('F' :: natToDigits m).drop 1).takeWhile Char.isDigit
        = natToDigits m := by
      show (natToDigits m).takeWhile Char.isDigit = natToDigits m
      exact List.takeWhile_eq_self_iff.mpr (natToDigits_digits m)
    have happ : simplifyFornecedor ('F' :: natToDigits m)
        = 'F' :: natToDigits (digitsToNat (natToDigits m)) := by
      simp only [simplifyFornecedor, hstrip, hfm, if_true, htake]
    rw [hres, happ, digitsToNat_natToDigits]
  · have hf : fMatch (pyStrip s) = false := by
      simpa using h
    have hres : simplifyFornecedor s = pyStrip s := by
      simp only [simplifyFornecedor, hf]
      rfl
    have hres2 : simplifyFornecedor (pyStrip s) = pyStrip (pyStrip s) := by
      simp only [simplifyFornecedor, pyStrip_idem, hf]
      rfl
    rw [hres, hres2, pyStrip_idem]
